import Mathlib

/-!
Shallow embedding of the ESP32 H-Bot motor-controller firmware
(`src/unnamed/part_000`).  The global mutable firmware state becomes the
structure `MotorState`; `micros()`-based timestamps are natural numbers with
the 32-bit wraparound subtraction the C `unsigned long` arithmetic performs;
`float` millimetre values and speeds are modelled as exact rationals; the
blocking homing loops are modelled with explicit fuel and an `Option` result
(`none` = the firmware would busy-wait forever).  Protocol output on
`Serial1` (`sendStatus` / `sendPositionUpdate`) is modelled as emitted
messages; debug prints on `Serial` are not modelled.
-/

set_option maxRecDepth 40000

namespace Firmware

/-- STEPS_PER_MM constant (80 steps per millimetre). -/
def STEPS_PER_MM : ℤ := 80

/-- Exact rational product `a * k` of a float value and an integer constant,
written with `Rat.divInt` so that it evaluates by kernel reduction. -/
def ratMulInt (a : ℚ) (k : ℤ) : ℚ := Rat.divInt (a.num * k) a.den

/-- Exact rational sum `a + b` of two float values, written with
`Rat.divInt` so that it evaluates by kernel reduction. -/
def ratAdd (a b : ℚ) : ℚ :=
  Rat.divInt (a.num * b.den + b.num * a.den) (a.den * b.den)

/-- DEFAULT_SPEED constant (2000 steps per second). -/
def DEFAULT_SPEED : ℚ := 2000

/-- MAX_SPEED constant (8000 steps per second). -/
def MAX_SPEED : ℚ := 8000

/-- MAX_X_MM board limit. -/
def MAX_X_MM : ℚ := 400

/-- MAX_Y_MM board limit. -/
def MAX_Y_MM : ℚ := 400

/-- Modulus of the 32-bit `unsigned long` timestamps returned by `micros()`. -/
def U32 : ℕ := 4294967296

/-- Wraparound subtraction `a - b` on 32-bit unsigned values, as C computes
`currentTime - lastStepTime`. -/
def usub32 (a b : ℕ) : ℕ := (a + (U32 - b % U32)) % U32

/-- C cast `(long)` of a floating value: truncation toward zero, modelled on
rationals via truncating integer division of numerator by denominator. -/
def truncToZero (q : ℚ) : ℤ := Int.tdiv q.num (q.den : ℤ)

/-- The `stepDelay` recomputation `1000000 / currentSpeed` cast to
`unsigned long`: the quotient `1000000 / v` is the rational
`(1000000 * v.den) / v.num`. -/
def stepDelayOf (v : ℚ) : ℕ := (truncToZero (Rat.divInt (1000000 * v.den) v.num)).toNat

/-- Arduino `constrain(amt, low, high)`. -/
def constrain (v lo hi : ℚ) : ℚ := if v < lo then lo else if hi < v then hi else v

/-- The firmware's global mutable state: step counters, millimetre mirrors,
target, motion/homing flags, speed settings, last pulse timestamp and the
electromagnet output latches. -/
structure MotorState where
  currentStepsX : ℤ
  currentStepsY : ℤ
  currentPosX : ℚ
  currentPosY : ℚ
  targetStepsX : ℤ
  targetStepsY : ℤ
  isMoving : Bool
  isHomed : Bool
  currentSpeed : ℚ
  stepDelay : ℕ
  lastStepTime : ℕ
  magnetStates : List Bool
deriving Repr, DecidableEq

/-- State after boot (`setup()` global initialisers). -/
def bootState : MotorState :=
  { currentStepsX := 0, currentStepsY := 0, currentPosX := 0, currentPosY := 0,
    targetStepsX := 0, targetStepsY := 0, isMoving := false, isHomed := false,
    currentSpeed := DEFAULT_SPEED, stepDelay := 1000000 / 2000, lastStepTime := 0,
    magnetStates := [false, false, false, false] }

/-- Observable output of one scheduler tick: step pulses emitted on motor A
and motor B, and position reports sent to the host. -/
structure RunOut where
  pulsesA : ℕ
  pulsesB : ℕ
  reports : ℕ
deriving Repr, DecidableEq

/-- One invocation of `stepMotors()` at `micros() = now`: completion check,
H-Bot transform of the remaining deltas, the `stepDelay` gate, at most one
pulse per motor with the source's position bookkeeping, and the millimetre
mirror update. -/
def stepMotors (s : MotorState) (now : ℕ) : MotorState × RunOut :=
  let remainingX := s.targetStepsX - s.currentStepsX
  let remainingY := s.targetStepsY - s.currentStepsY
  if remainingX = 0 ∧ remainingY = 0 then
    ({ s with isMoving := false }, ⟨0, 0, 1⟩)
  else
    let stepsA := remainingX + remainingY
    let stepsB := remainingX - remainingY
    if s.stepDelay ≤ usub32 now s.lastStepTime then
      let cx := if stepsA ≠ 0 then s.currentStepsX + (if 0 < stepsA then 1 else -1)
                else s.currentStepsX
      let pa : ℕ := if stepsA ≠ 0 then 1 else 0
      let cy := if stepsB ≠ 0 then
                  (if stepsA = 0 then s.currentStepsY + (if 0 < stepsB then -1 else 1)
                   else s.currentStepsY + (if 0 < remainingY then 1 else -1))
                else s.currentStepsY
      let pb : ℕ := if stepsB ≠ 0 then 1 else 0
      ({ s with currentStepsX := cx, currentStepsY := cy,
                currentPosX := Rat.divInt cx STEPS_PER_MM,
                currentPosY := Rat.divInt cy STEPS_PER_MM,
                lastStepTime := now }, ⟨pa, pb, 0⟩)
    else
      (s, ⟨0, 0, 0⟩)

/-- One iteration of the motion part of `loop()`: `stepMotors` runs only
while `isMoving`. -/
def loopTick (s : MotorState) (now : ℕ) : MotorState × RunOut :=
  if s.isMoving then stepMotors s now else (s, ⟨0, 0, 0⟩)

/-- Run `n` loop iterations against the simulated clock `t` (iteration `i`
sees `micros() = t i`), accumulating pulses and reports. -/
def runN (t : ℕ → ℕ) (s : MotorState) : ℕ → MotorState × RunOut
  | 0 => (s, ⟨0, 0, 0⟩)
  | n + 1 =>
    let r := runN t s n
    let o := loopTick r.1 (t n)
    (o.1, ⟨r.2.pulsesA + o.2.pulsesA, r.2.pulsesB + o.2.pulsesB,
           r.2.reports + o.2.reports⟩)

/-- Run loop iterations at the explicit list of clock readings `ts`,
accumulating pulses and reports. -/
def runTicks (s : MotorState) : List ℕ → MotorState × RunOut
  | [] => (s, ⟨0, 0, 0⟩)
  | t :: ts =>
    let o := loopTick s t
    let r := runTicks o.1 ts
    (r.1, ⟨o.2.pulsesA + r.2.pulsesA, o.2.pulsesB + r.2.pulsesB,
           o.2.reports + r.2.reports⟩)

/-- Protocol message sent to the host on `Serial1` (`sendStatus` or
`sendPositionUpdate`). -/
inductive Msg where
  | status (st : String) (message : String)
  | position (x y : ℚ) (homed : Bool)
deriving Repr, DecidableEq

/-- The `sendPositionUpdate()` report, built from the millimetre mirror and
the homed flag. -/
def sendPositionUpdate (s : MotorState) : Msg :=
  Msg.position s.currentPosX s.currentPosY s.isHomed

/-- First phase of `homeGantry()`: the homed flag is cleared before seeking
begins. -/
def homeStart (s : MotorState) : MotorState := { s with isHomed := false }

/-- The `while (digitalRead(LIMIT_SWITCH_PIN) == HIGH)` seek loop:
`switch i = true` means the limit switch reads triggered at iteration `i`.
Returns the number of seek pulses issued per motor, or `none` when the
switch never triggers within `fuel` iterations (the firmware busy-waits
forever in that case). -/
def seekFuel (switch : ℕ → Bool) : ℕ → ℕ → Option ℕ
  | 0, _ => none
  | fuel + 1, i =>
    if switch i then some 0
    else Option.map (fun n => n + 1) (seekFuel switch fuel (i + 1))

/-- The fixed `for (int i = 0; i < 100; i++)` back-off loop: its body only
pulses the motors, so the model counts its iterations. -/
def backoffRun : ℕ → ℕ
  | 0 => 0
  | k + 1 => backoffRun k + 1

/-- Pulse counts and messages produced by one `homeGantry()` run. -/
structure HomeOut where
  seekPulses : ℕ
  backoffPulses : ℕ
  msgs : List Msg
deriving Repr, DecidableEq

/-- The blocking `homeGantry()` routine: clear the homed flag, seek until the
limit switch triggers (or hang, modelled as `none`), back off exactly 100
steps, zero the position and its millimetre mirror, set the homed flag and
emit one `homed` status.  The step counters are not touched during seeking
or back-off, exactly as in the source. -/
def homeGantry (s : MotorState) (switch : ℕ → Bool) (fuel : ℕ) :
    Option (MotorState × HomeOut) :=
  match seekFuel switch fuel 0 with
  | none => none
  | some n =>
    some ({ homeStart s with
              currentStepsX := 0, currentStepsY := 0,
              currentPosX := 0, currentPosY := 0, isHomed := true },
          ⟨n, backoffRun 100, [Msg.status "homed" "Gantry homed to (0, 0)"]⟩)

/-- The `moveToAbsolute(targetX, targetY)` handler: reject with one error
status when not homed, otherwise clamp to the board, convert millimetres to
steps with the C `(long)` cast, set the target and enter the moving state. -/
def moveToAbsolute (s : MotorState) (targetX targetY : ℚ) : MotorState × List Msg :=
  if s.isHomed = false then
    (s, [Msg.status "error" "Gantry not homed"])
  else
    let tx := constrain targetX 0 MAX_X_MM
    let ty := constrain targetY 0 MAX_Y_MM
    ({ s with targetStepsX := truncToZero (ratMulInt tx STEPS_PER_MM),
              targetStepsY := truncToZero (ratMulInt ty STEPS_PER_MM),
              isMoving := true }, [])

/-- The `moveRelative(deltaX, deltaY)` handler: delegate to `moveToAbsolute`
from the current millimetre mirror. -/
def moveRelative (s : MotorState) (deltaX deltaY : ℚ) : MotorState × List Msg :=
  moveToAbsolute s (ratAdd s.currentPosX deltaX) (ratAdd s.currentPosY deltaY)

/-- The `setMagnet(magnetIndex, state)` handler: out-of-range indices are
ignored. -/
def setMagnet (mags : List Bool) (idx : ℤ) (st : Bool) : List Bool :=
  if idx < 0 ∨ 4 ≤ idx then mags else mags.set idx.toNat st

/-- The `setAllMagnets(state)` loop over the four magnet channels. -/
def setAllMagnets (mags : List Bool) (st : Bool) : List Bool :=
  setMagnet (setMagnet (setMagnet (setMagnet mags 0 st) 1 st) 2 st) 3 st

/-- Inbound command after JSON parsing, mirroring what `processUARTCommand`
can observe: a parse error, a document without a `cmd` field, one of the
known command kinds with optional parameter fields (the `cmd["x"] | 0.0`
defaults are applied by the handler, not here), or an unknown kind. -/
inductive Command where
  | malformed
  | noCmdField
  | home
  | moveAbsolute (x y speed : Option ℚ)
  | moveRelative (dx dy : Option ℚ)
  | magnetOn (magnet : Option ℤ)
  | magnetOff (magnet : Option ℤ)
  | setFan (fan speed : Option ℤ)
  | stop
  | getPosition
  | unknown (cmdType : String)

/-- State produced by the `stop` command branch: cancel the remaining motion
by clamping the target to the current position and clearing `isMoving`. -/
def stopState (s : MotorState) : MotorState :=
  { s with isMoving := false,
           targetStepsX := s.currentStepsX, targetStepsY := s.currentStepsY }

/-- The `processUARTCommand()` dispatcher.  Parse failures, missing `cmd`
fields and unknown kinds are logged on the debug serial only and change
nothing.  `home` runs the blocking `homeGantry` (hence the `switch`/`fuel`
arguments and the `none` result when the switch never triggers).  The
`move_absolute` handler applies a supplied `speed` field before calling
`moveToAbsolute`; missing coordinate fields default to `0.0`. -/
def processUARTCommand (s : MotorState) (c : Command) (switch : ℕ → Bool)
    (fuel : ℕ) : Option (MotorState × List Msg) :=
  match c with
  | .malformed => some (s, [])
  | .noCmdField => some (s, [])
  | .home =>
    match homeGantry s switch fuel with
    | none => none
    | some (s1, out) => some (s1, out.msgs)
  | .moveAbsolute ox oy ospeed =>
    let x := ox.getD 0
    let y := oy.getD 0
    let s1 := match ospeed with
      | some v => { s with currentSpeed := v, stepDelay := stepDelayOf v }
      | none => s
    some (moveToAbsolute s1 x y)
  | .moveRelative odx ody =>
    some (moveRelative s (odx.getD 0) (ody.getD 0))
  | .magnetOn om =>
    match om with
    | some m => some ({ s with magnetStates := setMagnet s.magnetStates (m - 1) true }, [])
    | none => some ({ s with magnetStates := setAllMagnets s.magnetStates true }, [])
  | .magnetOff om =>
    match om with
    | some m => some ({ s with magnetStates := setMagnet s.magnetStates (m - 1) false }, [])
    | none => some ({ s with magnetStates := setAllMagnets s.magnetStates false }, [])
  | .setFan _ _ => some (s, [])
  | .stop => some (stopState s, [Msg.status "stopped" "Movement stopped"])
  | .getPosition => some (s, [sendPositionUpdate s])
  | .unknown _ => some (s, [])

/-! Helper lemmas. -/

/-- Wraparound subtraction recovers an elapsed time below `2^32`. -/
theorem usub32_add (b d : ℕ) (hd : d < U32) : usub32 (b + d) b = d := by
  have h2 : U32 * (b / U32) + b % U32 = b := Nat.div_add_mod b U32
  have h3 : b % U32 < U32 := Nat.mod_lt _ (by norm_num [U32])
  have h1 : b + d + (U32 - b % U32) = U32 * (b / U32) + (U32 + d) := by omega
  unfold usub32
  rw [h1, Nat.mul_add_mod, Nat.add_mod_left, Nat.mod_eq_of_lt hd]

/-- The back-off loop runs exactly its iteration bound. -/
theorem backoffRun_eq (k : ℕ) : backoffRun k = k := by
  induction k with
  | zero => rfl
  | succ k ih => simp [backoffRun, ih]

/-- A successful seek run stops at the first iteration where the limit switch
reads triggered. -/
theorem seekFuel_some (switch : ℕ → Bool) :
    ∀ fuel i n, seekFuel switch fuel i = some n →
      switch (i + n) = true ∧ ∀ m, m < n → switch (i + m) = false := by
  intro fuel
  induction fuel with
  | zero => intro i n h; simp [seekFuel] at h
  | succ f ih =>
    intro i n h
    unfold seekFuel at h
    by_cases hs : switch i
    · simp [hs] at h
      subst h
      exact ⟨by simpa using hs, fun m hm => absurd hm (Nat.not_lt_zero m)⟩
    · simp [hs] at h
      obtain ⟨k, hk, hkn⟩ := h
      subst hkn
      obtain ⟨h1, h2⟩ := ih (i + 1) k hk
      refine ⟨?_, ?_⟩
      · rw [show i + (k + 1) = i + 1 + k from by omega]
        exact h1
      · intro m hm
        cases m with
        | zero => simpa using hs
        | succ m1 =>
          rw [show i + (m1 + 1) = i + 1 + m1 from by omega]
          exact h2 m1 (by omega)

/-! Claim theorems. -/

/-- Claim C6: the `stop` command, in any state, clamps the target to the
current position, forces the motion state to idle, emits one `stopped`
status, is idempotent on the state, and no pulses or reports are produced
by any subsequent loop ticks. -/
theorem stop_cancels_and_idles (s : MotorState) (switch : ℕ → Bool) (fuel : ℕ)
    (ts : List ℕ) :
    processUARTCommand s Command.stop switch fuel =
      some (stopState s, [Msg.status "stopped" "Movement stopped"]) ∧
    (stopState s).targetStepsX = s.currentStepsX ∧
    (stopState s).targetStepsY = s.currentStepsY ∧
    (stopState s).isMoving = false ∧
    stopState (stopState s) = stopState s ∧
    runTicks (stopState s) ts = (stopState s, ⟨0, 0, 0⟩) := by
  refine ⟨rfl, rfl, rfl, rfl, rfl, ?_⟩
  have hl : ∀ u, loopTick (stopState s) u = (stopState s, ⟨0, 0, 0⟩) := by
    intro u
    simp [loopTick, stopState]
  induction ts with
  | nil => rfl
  | cons t ts ih => simp [runTicks, hl, ih]

/-- Claim C9 (amended): unparsable input, input without a `cmd` field, and
unknown command kinds are ignored with no state mutation and no protocol
output; but commands with missing parameter fields are not rejected — the
handlers substitute defaults and execute (see the counterexample). -/
theorem malformed_and_unknown_ignored (s : MotorState) (switch : ℕ → Bool)
    (fuel : ℕ) (nm : String) :
    processUARTCommand s Command.malformed switch fuel = some (s, []) ∧
    processUARTCommand s Command.noCmdField switch fuel = some (s, []) ∧
    processUARTCommand s (Command.unknown nm) switch fuel = some (s, []) :=
  ⟨rfl, rfl, rfl⟩

/-- State used by the C9 counterexample: homed, resting away from the
origin. -/
def c9State : MotorState :=
  { bootState with
    isHomed := true
    currentStepsX := 8000
    currentStepsY := 8000
    currentPosX := 100
    currentPosY := 100
    targetStepsX := 8000
    targetStepsY := 8000 }

/-- Claim C9 counterexample: a `move_absolute` with both required coordinate
fields missing is executed with the `cmd["x"] | 0.0` defaults rather than
ignored — the target becomes `(0,0)` and the moving flag is set, so state is
mutated. -/
theorem missing_fields_not_ignored :
    Option.map (fun p => (p.1.isMoving, p.1.targetStepsX, p.1.targetStepsY))
      (processUARTCommand c9State (Command.moveAbsolute none none none)
        (fun _ => false) 0) = some (true, 0, 0) ∧
    c9State.isMoving = false ∧ c9State.targetStepsX = 8000 := by
  decide

/-- Claim C4 (amended): a `move_absolute` processed while unhomed is rejected
with exactly one `error` status; position, target and motion state are
unchanged, and the speed setting is unchanged exactly when the command
carries no `speed` field — a supplied `speed` field is applied even though
the move is rejected. -/
theorem move_absolute_not_homed_rejected (s : MotorState) (ox oy : Option ℚ)
    (switch : ℕ → Bool) (fuel : ℕ) (h : s.isHomed = false) :
    processUARTCommand s (Command.moveAbsolute ox oy none) switch fuel =
      some (s, [Msg.status "error" "Gantry not homed"]) ∧
    ∀ v : ℚ, processUARTCommand s (Command.moveAbsolute ox oy (some v)) switch fuel =
      some ({ s with currentSpeed := v, stepDelay := stepDelayOf v },
            [Msg.status "error" "Gantry not homed"]) := by
  constructor
  · simp [processUARTCommand, moveToAbsolute, h]
  · intro v
    simp [processUARTCommand, moveToAbsolute, h]

/-- Claim C4 witness: the rejection theorem applied to the boot state. -/
theorem move_absolute_not_homed_rejected_witness :
    bootState.isHomed = false ∧
    processUARTCommand bootState (Command.moveAbsolute (some 10) (some 10) none)
      (fun _ => false) 0 = some (bootState, [Msg.status "error" "Gantry not homed"]) :=
  ⟨by decide,
   (move_absolute_not_homed_rejected bootState (some 10) (some 10)
     (fun _ => false) 0 (by decide)).1⟩

/-- Claim C4 counterexample: with `HomedFlag = false`, a `move_absolute`
carrying `speed = 3000` is rejected with one error status, yet `SpeedSetting`
changes from 2000 to 3000 — refuting "no state changes ... SpeedSetting ...
unchanged". -/
theorem move_absolute_not_homed_speed_changed :
    bootState.isHomed = false ∧ bootState.currentSpeed = 2000 ∧
    Option.map (fun p => (p.1.currentSpeed, p.2))
      (processUARTCommand bootState
        (Command.moveAbsolute (some 10) (some 10) (some 3000)) (fun _ => false) 0) =
      some (3000, [Msg.status "error" "Gantry not homed"]) := by
  decide

/-- State used by the C8 scenario: homed and mid-move toward `(800, 0)` at
the default speed. -/
def c8State : MotorState :=
  { bootState with isHomed := true, isMoving := true, targetStepsX := 800 }

/-- State produced by the C8 scenario: the unvalidated speed `99999` was
applied while the move was in progress. -/
def c8After : MotorState :=
  { c8State with
    currentSpeed := 99999
    stepDelay := 10
    targetStepsX := 800
    targetStepsY := 800 }

/-- Claim C8 (amended): a `move_absolute` command carrying a `speed` field
applies it unconditionally — in any motion state, including mid-move, with
no lower or upper bound check — setting `currentSpeed` to the raw value and
recomputing `stepDelay` from it. -/
theorem speed_applied_unvalidated (s : MotorState) (ox oy : Option ℚ) (v : ℚ)
    (switch : ℕ → Bool) (fuel : ℕ) (hv : 0 < v) (s1 : MotorState)
    (msgs : List Msg)
    (hr : processUARTCommand s (Command.moveAbsolute ox oy (some v)) switch fuel =
      some (s1, msgs)) :
    s1.currentSpeed = v ∧ s1.stepDelay = stepDelayOf v := by
  simp only [processUARTCommand, moveToAbsolute] at hr
  split at hr <;>
    (simp only [Option.some.injEq, Prod.mk.injEq] at hr
     obtain ⟨h1, h2⟩ := hr
     subst h1
     exact ⟨rfl, rfl⟩)

/-- Claim C8 witness: the amended theorem applied at speed `99999` sent
mid-move. -/
theorem speed_applied_unvalidated_witness :
    (0 : ℚ) < 99999 ∧
    processUARTCommand c8State (Command.moveAbsolute (some 10) (some 10) (some 99999))
      (fun _ => false) 0 = some (c8After, []) ∧
    c8After.currentSpeed = 99999 :=
  ⟨by norm_num, by decide,
   (speed_applied_unvalidated c8State (some 10) (some 10) 99999 (fun _ => false) 0
     (by norm_num) c8After [] (by decide)).1⟩

/-- Claim C8 counterexample: a `move_absolute` processed while a move is in
progress (`isMoving = true`) sets the speed to `99999`, above
`MAX_SPEED = 8000` — refuting both "mutated only while Idle" and
"lies in `(0, MAX_SPEED]`". -/
theorem speed_bound_violated :
    c8State.isMoving = true ∧
    Option.map (fun p => p.1.currentSpeed)
      (processUARTCommand c8State
        (Command.moveAbsolute (some 10) (some 10) (some 99999)) (fun _ => false) 0) =
      some 99999 ∧
    MAX_SPEED < 99999 := by
  decide

/-- Claim C2: one `stepMotors` tick while moving pulses each motor at most
once; any pulse requires the `stepDelay` deadline (computed from the speed
setting) to have elapsed since `lastStepTime`; and when the deadline has not
elapsed the tick emits no pulses and leaves position, millimetre mirror and
target untouched. -/
theorem stepMotors_pulse_discipline (s : MotorState) (now : ℕ)
    (hm : s.isMoving = true) (hsd : s.stepDelay = stepDelayOf s.currentSpeed) :
    (stepMotors s now).2.pulsesA ≤ 1 ∧ (stepMotors s now).2.pulsesB ≤ 1 ∧
    (0 < (stepMotors s now).2.pulsesA + (stepMotors s now).2.pulsesB →
      stepDelayOf s.currentSpeed ≤ usub32 now s.lastStepTime) ∧
    (usub32 now s.lastStepTime < stepDelayOf s.currentSpeed →
      (stepMotors s now).2.pulsesA = 0 ∧ (stepMotors s now).2.pulsesB = 0 ∧
      (stepMotors s now).1.currentStepsX = s.currentStepsX ∧
      (stepMotors s now).1.currentStepsY = s.currentStepsY ∧
      (stepMotors s now).1.currentPosX = s.currentPosX ∧
      (stepMotors s now).1.currentPosY = s.currentPosY ∧
      (stepMotors s now).1.targetStepsX = s.targetStepsX ∧
      (stepMotors s now).1.targetStepsY = s.targetStepsY) := by
  rw [← hsd]
  by_cases h1 : s.targetStepsX - s.currentStepsX = 0 ∧ s.targetStepsY - s.currentStepsY = 0
  · simp [stepMotors, h1]
  · by_cases h2 : s.stepDelay ≤ usub32 now s.lastStepTime
    · simp only [stepMotors, if_neg h1, if_pos h2]
      refine ⟨?_, ?_, ?_, ?_⟩
      · split_ifs <;> simp
      · split_ifs <;> simp
      · intro _; exact h2
      · intro h; exact absurd h (by omega)
    · simp [stepMotors, h1, h2]

/-- State used by the C2 witness: mid-move with the deadline not yet
elapsed at `now = 100`. -/
def c2State : MotorState :=
  { bootState with isHomed := true, isMoving := true, targetStepsX := 800 }

/-- Claim C2 witness: the discipline theorem applied mid-move at a tick
100 µs after boot, before the 500 µs deadline. -/
theorem stepMotors_pulse_discipline_witness :
    c2State.isMoving = true ∧
    c2State.stepDelay = stepDelayOf c2State.currentSpeed ∧
    (stepMotors c2State 100).2.pulsesA ≤ 1 :=
  ⟨by decide, by decide,
   (stepMotors_pulse_discipline c2State 100 (by decide) (by decide)).1⟩

/-- Claim C3: on a pulse-emitting tick in which exactly one transformed
motor delta is nonzero, the Y update is derived from the pulsing motor's
direction — only motor B pulsing with `stepsB > 0` decrements `steps_y`,
with `stepsB < 0` increments it — and the total remaining distance
`natAbs remainingX + natAbs remainingY` drops by exactly one. -/
theorem stepMotors_single_motor_update (s : MotorState) (now : ℕ)
    (hguard : s.stepDelay ≤ usub32 now s.lastStepTime)
    (hsingle :
      ((s.targetStepsX - s.currentStepsX) + (s.targetStepsY - s.currentStepsY) = 0 ∧
       (s.targetStepsX - s.currentStepsX) - (s.targetStepsY - s.currentStepsY) ≠ 0) ∨
      ((s.targetStepsX - s.currentStepsX) + (s.targetStepsY - s.currentStepsY) ≠ 0 ∧
       (s.targetStepsX - s.currentStepsX) - (s.targetStepsY - s.currentStepsY) = 0)) :
    (((s.targetStepsX - s.currentStepsX) + (s.targetStepsY - s.currentStepsY) = 0 ∧
      0 < (s.targetStepsX - s.currentStepsX) - (s.targetStepsY - s.currentStepsY)) →
      (stepMotors s now).1.currentStepsY = s.currentStepsY - 1) ∧
    (((s.targetStepsX - s.currentStepsX) + (s.targetStepsY - s.currentStepsY) = 0 ∧
      (s.targetStepsX - s.currentStepsX) - (s.targetStepsY - s.currentStepsY) < 0) →
      (stepMotors s now).1.currentStepsY = s.currentStepsY + 1) ∧
    ((stepMotors s now).1.targetStepsX - (stepMotors s now).1.currentStepsX).natAbs +
      ((stepMotors s now).1.targetStepsY - (stepMotors s now).1.currentStepsY).natAbs + 1 =
      (s.targetStepsX - s.currentStepsX).natAbs +
        (s.targetStepsY - s.currentStepsY).natAbs := by
  have h1 : ¬(s.targetStepsX - s.currentStepsX = 0 ∧ s.targetStepsY - s.currentStepsY = 0) := by
    rcases hsingle with ⟨_, hb⟩ | ⟨ha, _⟩
    · intro ⟨hx, hy⟩; exact hb (by rw [hx, hy]; ring)
    · intro ⟨hx, hy⟩; exact ha (by rw [hx, hy]; ring)
  rcases hsingle with ⟨ha, hb⟩ | ⟨ha, hb⟩ <;>
    (simp only [stepMotors, if_neg h1, if_pos hguard]
     refine ⟨?_, ?_, ?_⟩
     · intro ⟨ha2, hb2⟩
       split_ifs <;> omega
     · intro ⟨ha2, hb2⟩
       split_ifs <;> omega
     · split_ifs <;> omega)

/-- State used by the C3 witness: only motor B's transformed delta is
nonzero (`remaining = (1, -1)`, so `stepsA = 0`, `stepsB = 2`). -/
def c3State : MotorState :=
  { bootState with
    isHomed := true
    isMoving := true
    targetStepsX := 1
    targetStepsY := -1 }

/-- Claim C3 witness: the single-motor theorem applied to a tick where only
motor B pulses in the positive direction. -/
theorem stepMotors_single_motor_update_witness :
    c3State.stepDelay ≤ usub32 500 c3State.lastStepTime ∧
    (stepMotors c3State 500).1.currentStepsY = c3State.currentStepsY - 1 :=
  ⟨by decide,
   (stepMotors_single_motor_update c3State 500 (by decide) (Or.inl (by decide))).1 (by decide)⟩

/-- Claim C7: a homing run that finds the limit switch clears the homed
flag at the start, seeks exactly until the first triggered reading, backs
off exactly the fixed 100-step count (independent of the sensor), then
resets the position and its millimetre mirror to zero, sets the homed flag
and emits exactly one `homed` status. -/
theorem homeGantry_spec (s : MotorState) (switch : ℕ → Bool) (fuel : ℕ)
    (s1 : MotorState) (out : HomeOut)
    (hr : homeGantry s switch fuel = some (s1, out)) :
    (homeStart s).isHomed = false ∧
    switch out.seekPulses = true ∧
    (∀ m, m < out.seekPulses → switch m = false) ∧
    out.backoffPulses = 100 ∧
    s1.currentStepsX = 0 ∧ s1.currentStepsY = 0 ∧
    s1.currentPosX = 0 ∧ s1.currentPosY = 0 ∧
    s1.isHomed = true ∧
    out.msgs = [Msg.status "homed" "Gantry homed to (0, 0)"] := by
  unfold homeGantry at hr
  cases hm : seekFuel switch fuel 0 with
  | none => rw [hm] at hr; simp at hr
  | some n =>
    rw [hm] at hr
    simp only [Option.some.injEq, Prod.mk.injEq] at hr
    obtain ⟨h1, h2⟩ := hr
    subst h1
    subst h2
    obtain ⟨ha, hb⟩ := seekFuel_some switch fuel 0 n hm
    refine ⟨rfl, by simpa using ha, ?_, by simp [backoffRun_eq], rfl, rfl, rfl, rfl, rfl, rfl⟩
    intro m hmn
    simpa using hb m hmn

/-- Limit switch trace for the C7 witness: triggers from reading 3 on. -/
def c7Switch (n : ℕ) : Bool := decide (3 ≤ n)

/-- Final state for the C7 witness. -/
def c7Final : MotorState := { bootState with isHomed := true }

/-- Homing output for the C7 witness. -/
def c7Out : HomeOut := ⟨3, 100, [Msg.status "homed" "Gantry homed to (0, 0)"]⟩

/-- Claim C7 witness: the homing theorem applied to a boot-state run whose
switch triggers at the third seek reading. -/
theorem homeGantry_spec_witness :
    homeGantry bootState c7Switch 10 = some (c7Final, c7Out) ∧
    ((homeStart bootState).isHomed = false ∧
     c7Switch c7Out.seekPulses = true ∧
     (∀ m, m < c7Out.seekPulses → c7Switch m = false) ∧
     c7Out.backoffPulses = 100 ∧
     c7Final.currentStepsX = 0 ∧ c7Final.currentStepsY = 0 ∧
     c7Final.currentPosX = 0 ∧ c7Final.currentPosY = 0 ∧
     c7Final.isHomed = true ∧
     c7Out.msgs = [Msg.status "homed" "Gantry homed to (0, 0)"]) :=
  ⟨by decide, homeGantry_spec bootState c7Switch 10 c7Final c7Out (by decide)⟩

/-- Claim C5 (amended): a `home` command received while `Moving` does not
perform `stop()` first — the handler calls `homeGantry` directly, which
leaves `isMoving` set and the pre-homing target in place, so after homing
re-zeroes the position the main loop resumes stepping toward the old
target. -/
theorem home_while_moving_keeps_target (s : MotorState) (switch : ℕ → Bool)
    (fuel : ℕ) (s1 : MotorState) (out : HomeOut) (hm : s.isMoving = true)
    (hr : homeGantry s switch fuel = some (s1, out)) :
    processUARTCommand s Command.home switch fuel = some (s1, out.msgs) ∧
    s1.isMoving = true ∧
    s1.targetStepsX = s.targetStepsX ∧ s1.targetStepsY = s.targetStepsY := by
  refine ⟨?_, ?_⟩
  · unfold processUARTCommand
    rw [hr]
  · unfold homeGantry at hr
    cases hsk : seekFuel switch fuel 0 with
    | none => rw [hsk] at hr; simp at hr
    | some n =>
      rw [hsk] at hr
      simp only [Option.some.injEq, Prod.mk.injEq] at hr
      obtain ⟨h1, _⟩ := hr
      subst h1
      exact ⟨by simpa [homeStart] using hm, rfl, rfl⟩

/-- State for the C5 scenario: homed, mid-move at `(100, 0)` steps toward
target `(300, 0)` steps. -/
def c5State : MotorState :=
  { bootState with
    isHomed := true
    isMoving := true
    currentStepsX := 100
    currentPosX := Rat.divInt 100 80
    targetStepsX := 300 }

/-- Limit switch trace for the C5 scenario: triggers from reading 2 on. -/
def c5Switch (n : ℕ) : Bool := decide (2 ≤ n)

/-- Final state of the C5 scenario run. -/
def c5Final : MotorState :=
  { c5State with
    currentStepsX := 0
    currentStepsY := 0
    currentPosX := 0
    currentPosY := 0 }

/-- Homing output of the C5 scenario run. -/
def c5Out : HomeOut := ⟨2, 100, [Msg.status "homed" "Gantry homed to (0, 0)"]⟩

/-- Claim C5 counterexample: processing `home` while `Moving` leaves
`isMoving = true` and the pre-homing target `(300, 0)` intact while the
position is re-zeroed — refuting "Target is clamped to the current
AxisPosition and MotionState is forced to Idle before the homing sequence
begins". -/
theorem home_while_moving_counterexample :
    c5State.isMoving = true ∧
    Option.map (fun p => (p.1.isMoving, p.1.targetStepsX, p.1.currentStepsX))
      (processUARTCommand c5State Command.home c5Switch 10) = some (true, 300, 0) := by
  decide

/-- Claim C5 witness: the amended theorem applied to the mid-move homing
scenario. -/
theorem home_while_moving_keeps_target_witness :
    c5State.isMoving = true ∧
    homeGantry c5State c5Switch 10 = some (c5Final, c5Out) ∧
    (processUARTCommand c5State Command.home c5Switch 10 = some (c5Final, c5Out.msgs) ∧
     c5Final.isMoving = true ∧
     c5Final.targetStepsX = c5State.targetStepsX ∧
     c5Final.targetStepsY = c5State.targetStepsY) :=
  ⟨by decide, by decide,
   home_while_moving_keeps_target c5State c5Switch 10 c5Final c5Out
     (by decide) (by decide)⟩

/-- The C10 invariant: the millimetre mirror equals the authoritative step
counters divided by `STEPS_PER_MM`. -/
def posInv (s : MotorState) : Prop :=
  s.currentPosX = Rat.divInt s.currentStepsX STEPS_PER_MM ∧
  s.currentPosY = Rat.divInt s.currentStepsY STEPS_PER_MM

instance (s : MotorState) : Decidable (posInv s) := by
  unfold posInv
  infer_instance

/-- Helper for C10: one loop tick preserves the mirror invariant. -/
theorem posInv_loopTick (s : MotorState) (now : ℕ) (h : posInv s) :
    posInv (loopTick s now).1 := by
  unfold posInv at h ⊢
  by_cases hm : s.isMoving
  · by_cases h1 : s.targetStepsX - s.currentStepsX = 0 ∧ s.targetStepsY - s.currentStepsY = 0
    · simpa [loopTick, stepMotors, hm, h1] using h
    · by_cases h2 : s.stepDelay ≤ usub32 now s.lastStepTime
      · simp [loopTick, stepMotors, hm, h1, h2]
      · simpa [loopTick, stepMotors, hm, h1, h2] using h
  · simpa [loopTick, hm] using h

/-- Helper for C10: a completed homing run establishes the mirror
invariant. -/
theorem posInv_homeGantry (s : MotorState) (switch : ℕ → Bool) (fuel : ℕ)
    (s1 : MotorState) (out : HomeOut)
    (hr : homeGantry s switch fuel = some (s1, out)) : posInv s1 := by
  unfold homeGantry at hr
  cases hsk : seekFuel switch fuel 0 with
  | none => rw [hsk] at hr; simp at hr
  | some n =>
    rw [hsk] at hr
    simp only [Option.some.injEq, Prod.mk.injEq] at hr
    obtain ⟨h1, _⟩ := hr
    subst h1
    constructor <;> simp [posInv, STEPS_PER_MM]

/-- Helper for C10: `moveToAbsolute` does not touch the step counters or
the mirror. -/
theorem posInv_moveToAbsolute (s : MotorState) (x y : ℚ) (h : posInv s) :
    posInv (moveToAbsolute s x y).1 := by
  unfold moveToAbsolute
  split
  · exact h
  · exact h

/-- Claim C10: the millimetre mirror invariant holds at boot, is preserved
by every loop tick, by every completed homing run and by every processed
command, and every emitted position report is the step counters divided by
`STEPS_PER_MM`. -/
theorem position_mirror_invariant :
    posInv bootState ∧
    (∀ s now, posInv s → posInv (loopTick s now).1) ∧
    (∀ s switch fuel s1 out,
      homeGantry s switch fuel = some (s1, out) → posInv s1) ∧
    (∀ s c switch fuel s1 msgs, posInv s →
      processUARTCommand s c switch fuel = some (s1, msgs) → posInv s1) ∧
    (∀ s, posInv s →
      sendPositionUpdate s =
        Msg.position (Rat.divInt s.currentStepsX STEPS_PER_MM)
          (Rat.divInt s.currentStepsY STEPS_PER_MM) s.isHomed) := by
  refine ⟨by decide, posInv_loopTick, posInv_homeGantry, ?_, ?_⟩
  · intro s c switch fuel s1 msgs h hr
    cases c with
    | malformed => simp only [processUARTCommand, Option.some.injEq, Prod.mk.injEq] at hr
                   obtain ⟨h1, _⟩ := hr; subst h1; exact h
    | noCmdField => simp only [processUARTCommand, Option.some.injEq, Prod.mk.injEq] at hr
                    obtain ⟨h1, _⟩ := hr; subst h1; exact h
    | home =>
      simp only [processUARTCommand] at hr
      cases hg : homeGantry s switch fuel with
      | none => rw [hg] at hr; simp at hr
      | some r =>
        rw [hg] at hr
        simp only [Option.some.injEq, Prod.mk.injEq] at hr
        obtain ⟨h1, _⟩ := hr
        subst h1
        exact posInv_homeGantry s switch fuel r.1 r.2 (by rw [hg])
    | moveAbsolute ox oy ospeed =>
      cases ospeed with
      | none =>
        simp only [processUARTCommand, Option.some.injEq] at hr
        have h1 : (moveToAbsolute s (Option.getD ox 0) (Option.getD oy 0)).1 = s1 := by
          rw [hr]
        rw [← h1]
        exact posInv_moveToAbsolute _ _ _ h
      | some v =>
        simp only [processUARTCommand, Option.some.injEq] at hr
        have h1 : (moveToAbsolute { s with currentSpeed := v, stepDelay := stepDelayOf v }
            (Option.getD ox 0) (Option.getD oy 0)).1 = s1 := by
          rw [hr]
        rw [← h1]
        exact posInv_moveToAbsolute _ _ _ h
    | moveRelative odx ody =>
      simp only [processUARTCommand, moveRelative, Option.some.injEq] at hr
      have h1 : (moveToAbsolute s (ratAdd s.currentPosX (Option.getD odx 0))
          (ratAdd s.currentPosY (Option.getD ody 0))).1 = s1 := by
        rw [hr]
      rw [← h1]
      exact posInv_moveToAbsolute _ _ _ h
    | magnetOn om =>
      cases om with
      | none => simp only [processUARTCommand, Option.some.injEq, Prod.mk.injEq] at hr
                obtain ⟨h1, _⟩ := hr; subst h1; exact h
      | some m => simp only [processUARTCommand, Option.some.injEq, Prod.mk.injEq] at hr
                  obtain ⟨h1, _⟩ := hr; subst h1; exact h
    | magnetOff om =>
      cases om with
      | none => simp only [processUARTCommand, Option.some.injEq, Prod.mk.injEq] at hr
                obtain ⟨h1, _⟩ := hr; subst h1; exact h
      | some m => simp only [processUARTCommand, Option.some.injEq, Prod.mk.injEq] at hr
                  obtain ⟨h1, _⟩ := hr; subst h1; exact h
    | setFan ofan ospeed =>
      simp only [processUARTCommand, Option.some.injEq, Prod.mk.injEq] at hr
      obtain ⟨h1, _⟩ := hr; subst h1; exact h
    | stop =>
      simp only [processUARTCommand, Option.some.injEq, Prod.mk.injEq] at hr
      obtain ⟨h1, _⟩ := hr; subst h1; exact h
    | getPosition =>
      simp only [processUARTCommand, Option.some.injEq, Prod.mk.injEq] at hr
      obtain ⟨h1, _⟩ := hr; subst h1; exact h
    | unknown nm =>
      simp only [processUARTCommand, Option.some.injEq, Prod.mk.injEq] at hr
      obtain ⟨h1, _⟩ := hr; subst h1; exact h
  · intro s h
    unfold sendPositionUpdate
    rw [h.1, h.2]

/-- Claim C10 witness: the invariant theorem applied to a tick of the
mid-move scenario state. -/
theorem position_mirror_invariant_witness :
    posInv c8State ∧ posInv (loopTick c8State 500).1 :=
  ⟨by decide, position_mirror_invariant.2.1 c8State 500 (by decide)⟩

/-- Initial state of the C1 scenario: homed at `(0,0)`, `begin_move` to
target `(800, 0)` steps at the default 2000 steps per second
(`stepDelay = 500` µs). -/
def c1Init : MotorState :=
  { bootState with isHomed := true, isMoving := true, targetStepsX := 800 }

/-- Synthetic clock of the C1 scenario: tick `i` sees `micros() = 500*(i+1)`,
advancing in exactly 500 µs increments. -/
def c1Sched (i : ℕ) : ℕ := 500 * (i + 1)

/-- Mid-move state of the C1 scenario after an even number `k` of pulse
ticks: position `(k, 0)`, last pulse at `lst`. -/
def c1Even (k : ℤ) (lst : ℕ) : MotorState :=
  { currentStepsX := k, currentStepsY := 0,
    currentPosX := Rat.divInt k STEPS_PER_MM, currentPosY := 0,
    targetStepsX := 800, targetStepsY := 0, isMoving := true, isHomed := true,
    currentSpeed := 2000, stepDelay := 500, lastStepTime := lst,
    magnetStates := [false, false, false, false] }

/-- The stuck state `(800, -1)` of the C1 scenario (the even point of the
two-tick oscillation), last pulse at `lst`. -/
def c1CycleAt (lst : ℕ) : MotorState :=
  { currentStepsX := 800, currentStepsY := -1,
    currentPosX := Rat.divInt 800 STEPS_PER_MM, currentPosY := Rat.divInt (-1) STEPS_PER_MM,
    targetStepsX := 800, targetStepsY := 0, isMoving := true, isHomed := true,
    currentSpeed := 2000, stepDelay := 500, lastStepTime := lst,
    magnetStates := [false, false, false, false] }

/-- The overshoot state `(801, 0)` of the C1 scenario (the odd point of the
two-tick oscillation), last pulse at `lst`. -/
def c1MidAt (lst : ℕ) : MotorState :=
  { currentStepsX := 801, currentStepsY := 0,
    currentPosX := Rat.divInt 801 STEPS_PER_MM, currentPosY := 0,
    targetStepsX := 800, targetStepsY := 0, isMoving := true, isHomed := true,
    currentSpeed := 2000, stepDelay := 500, lastStepTime := lst,
    magnetStates := [false, false, false, false] }

/-- Runs compose: `m + n` ticks are the first `m` ticks followed by `n`
ticks under the shifted clock, with pulse and report counts added. -/
theorem runN_add (t : ℕ → ℕ) (s : MotorState) (m n : ℕ) :
    runN t s (m + n) =
      ((runN (fun i => t (m + i)) (runN t s m).1 n).1,
       ⟨(runN t s m).2.pulsesA + (runN (fun i => t (m + i)) (runN t s m).1 n).2.pulsesA,
        (runN t s m).2.pulsesB + (runN (fun i => t (m + i)) (runN t s m).1 n).2.pulsesB,
        (runN t s m).2.reports + (runN (fun i => t (m + i)) (runN t s m).1 n).2.reports⟩) := by
  induction n with
  | zero => simp [runN]
  | succ k ih =>
    have e : m + (k + 1) = (m + k) + 1 := by ring
    rw [e]
    simp only [runN]
    rw [ih]
    dsimp only
    simp only [Prod.mk.injEq, RunOut.mk.injEq]
    refine ⟨?_, ?_, ?_, ?_⟩ <;> first | trivial | omega

/-- First 400 ticks of the C1 scenario, evaluated. -/
theorem c1_chunk1 :
    runN c1Sched c1Init 400 = (c1Even 400 200000, ⟨400, 400, 0⟩) := by
  decide

/-- Ticks 400 to 799 of the C1 scenario, evaluated: tick 799 is the
single-motor tick that overshoots into the stuck state `(800, -1)`. -/
theorem c1_chunk2 :
    runN (fun i => c1Sched (400 + i)) (c1Even 400 200000) 400 =
      (c1CycleAt 400000, ⟨400, 399, 0⟩) := by
  decide

/-- After 800 ticks of the C1 scenario the state is stuck at `(800, -1)`,
still moving, with no report emitted. -/
theorem c1_run800 :
    runN c1Sched c1Init 800 = (c1CycleAt 400000, ⟨800, 799, 0⟩) := by
  have h := runN_add c1Sched c1Init 400 400
  rw [c1_chunk1] at h
  dsimp only at h
  rw [c1_chunk2] at h
  norm_num at h
  exact h

/-- A pulse tick from the stuck state `(800, -1)`: remaining `(0, 1)` gives
`stepsA = 1`, `stepsB = -1`, so both motors pulse and the state moves to the
overshoot state `(801, 0)`. -/
theorem c1_tick_cycle (lst now : ℕ) (h : 500 ≤ usub32 now lst) :
    loopTick (c1CycleAt lst) now = (c1MidAt now, ⟨1, 1, 0⟩) := by
  simp [loopTick, stepMotors, c1CycleAt, c1MidAt, h]

/-- A pulse tick from the overshoot state `(801, 0)`: remaining `(-1, 0)`
gives `stepsA = stepsB = -1`, so both motors pulse and the state returns to
the stuck state `(800, -1)`. -/
theorem c1_tick_mid (lst now : ℕ) (h : 500 ≤ usub32 now lst) :
    loopTick (c1MidAt lst) now = (c1CycleAt now, ⟨1, 1, 0⟩) := by
  simp [loopTick, stepMotors, c1MidAt, c1CycleAt, h]

/-- Consecutive C1 clock readings are 500 µs apart under wraparound
subtraction. -/
theorem usub32_sched (i : ℕ) : usub32 (c1Sched (i + 1)) (c1Sched i) = 500 := by
  have h : c1Sched (i + 1) = c1Sched i + 500 := by
    simp [c1Sched]
    ring
  rw [h]
  exact usub32_add _ _ (by norm_num [U32])

/-- Claim C1 (code bug): the scenario `begin_move((800,0))` at 2000 steps
per second with the clock advancing in 500 µs increments never completes.
After 800 ticks the scheduler is stuck oscillating between `(800, -1)` and
`(801, 0)` — for every `n`, tick `800 + 2n` finds position `(800, -1)`,
`isMoving` still true, and zero completion reports ever emitted — because a
tick with `remainingY = 0` and both motors pulsing decrements `steps_y`
(`currentStepsY += (remainingY > 0) ? 1 : -1`), so `AxisPosition` never
equals the target `(800, 0)` and the `Idle` transition and its single
position report never happen. -/
theorem move_800_0_never_completes (n : ℕ) :
    runN c1Sched c1Init (800 + 2 * n) =
      (c1CycleAt (500 * (800 + 2 * n)), ⟨800 + 2 * n, 799 + 2 * n, 0⟩) := by
  induction n with
  | zero => simpa using c1_run800
  | succ k ih =>
    have e : 800 + 2 * (k + 1) = ((800 + 2 * k) + 1) + 1 := by ring
    rw [e]
    simp only [runN]
    rw [ih]
    dsimp only
    have hu1 : 500 ≤ usub32 (c1Sched (800 + 2 * k)) (500 * (800 + 2 * k)) := by
      have h : c1Sched (800 + 2 * k) = 500 * (800 + 2 * k) + 500 := by
        simp [c1Sched]
        ring
      rw [h, usub32_add _ _ (by norm_num [U32])]
    rw [c1_tick_cycle _ _ hu1]
    dsimp only
    have hu2 : 500 ≤ usub32 (c1Sched ((800 + 2 * k) + 1)) (c1Sched (800 + 2 * k)) := by
      rw [usub32_sched]
    rw [c1_tick_mid _ _ hu2]
    have e2 : c1Sched ((800 + 2 * k) + 1) = 500 * (800 + 2 * (k + 1)) := by
      simp [c1Sched]
      ring
    rw [e2]
    simp only [Prod.mk.injEq, RunOut.mk.injEq]
    refine ⟨rfl, ?_, ?_, ?_⟩ <;> first | trivial | omega

end Firmware
